import Mathlib

/-!
Verification development for the conversational-memory core
(`app/services/memory_intelligence.py` and `app/services/embedding.py`).

The Python code is shallowly embedded: pure helpers become Lean functions on
`String` / `List Char` / `ℚ`; results of external I/O (vector index hits,
database rows, LLM completions) and the points where the Python code can raise
are externalized as explicit parameters; `dict` fields that may be absent are
modelled with `Option`.  Scores are modelled as rationals.
-/

/-! ### Python string primitives -/

/-- `chars_at_head p s` holds when the character list `p` is an initial run of `s`
(Python slice comparison used by substring search). -/
def chars_at_head : List Char → List Char → Bool
  | [], _ => true
  | _ :: _, [] => false
  | c :: p, d :: s => c == d && chars_at_head p s

/-- `chars_contains p s`: `p` occurs contiguously inside `s`. -/
def chars_contains (p : List Char) : List Char → Bool
  | [] => chars_at_head p []
  | d :: s => chars_at_head p (d :: s) || chars_contains p s

/-- Python's `needle in hay` on strings: contiguous substring containment
(true for the empty needle, as in Python). -/
def py_in (needle hay : String) : Bool :=
  chars_contains needle.data hay.data

/-- Python's `str.lower()` (ASCII case folding, which covers all inputs used
by the embedded code). -/
def py_lower (s : String) : String :=
  ⟨s.data.map Char.toLower⟩

/-! ### Topic taxonomy (`_extract_farming_topics`) -/

/-- The `farming_keywords` dict hard-coded in `_extract_farming_topics`,
in its (insertion-ordered) iteration order. -/
def farming_keywords : List (String × List String) :=
  [("coffee", ["coffee", "arabica", "robusta", "sl28", "sl34", "ruiru", "batian"]),
   ("pests", ["cbd", "clr", "thrips", "mites", "aphids", "pests", "disease"]),
   ("weather", ["rain", "drought", "weather", "season", "climate"]),
   ("harvest", ["harvest", "picking", "processing", "drying", "milling"]),
   ("planting", ["planting", "seedlings", "nursery", "spacing"]),
   ("soil", ["soil", "fertilizer", "nutrition", "ph", "organic"]),
   ("market", ["price", "market", "selling", "buyer", "cooperative"])]

/-- `_extract_farming_topics`: lower-case the text and keep, in taxonomy order,
every topic one of whose keywords occurs in the text. -/
def extract_farming_topics (text : String) : List String :=
  let tl := py_lower text
  (farming_keywords.filter (fun p => p.2.any (fun k => py_in k tl))).map (fun p => p.1)

/-! ### Memory-type classification (`_classify_memory_type`) -/

/-- `_classify_memory_type`: fixed keyword rules tried in priority order,
first match wins; operates on the lower-cased `content` field. -/
def classify_memory_type (content : String) : String :=
  let c := py_lower content
  if ["question", "?", "how", "what", "when", "where", "why"].any (fun w => py_in w c) then
    "question"
  else if ["problem", "issue", "trouble", "help"].any (fun w => py_in w c) then
    "problem_solving"
  else if ["thanks", "thank", "helpful", "great"].any (fun w => py_in w c) then
    "positive_feedback"
  else if ["price", "sell", "buy", "market"].any (fun w => py_in w c) then
    "market_inquiry"
  else if ["plant", "grow", "harvest", "fertilize"].any (fun w => py_in w c) then
    "farming_activity"
  else
    "general_conversation"

/-! ### Entities and farming context -/

/-- `_extract_key_entities`: lexical matches emitted as `category:value` tags,
in the source's list order (varieties, then counties, then time phrases). -/
def extract_key_entities (content : String) : List String :=
  let cl := py_lower content
  ((["sl28", "sl34", "ruiru 11", "batian", "k7"].filter (fun v => py_in v cl)).map
      (fun v => "variety:" ++ v))
    ++ ((["nyeri", "kiambu", "muranga", "kirinyaga", "embu", "meru"].filter
        (fun v => py_in v cl)).map (fun v => "location:" ++ v))
    ++ ((["today", "yesterday", "week", "month", "season", "harvest time"].filter
        (fun v => py_in v cl)).map (fun v => "time:" ++ v))

/-- The `farming_context` record built by `_extract_farming_context`
(`season_reference` is initialized to `None` and never assigned). -/
structure FarmingContext where
  crop_mentioned : List String
  activity_type : Option String
  season_reference : Option String
  problem_mentioned : Bool
  deriving DecidableEq, Repr

/-- `_extract_farming_context`. -/
def extract_farming_context (content : String) : FarmingContext :=
  let cl := py_lower content
  { crop_mentioned := ["coffee", "maize", "beans", "tomatoes"].filter (fun c => py_in c cl)
    activity_type :=
      ["planting", "harvesting", "pruning", "fertilizing", "spraying"].find?
        (fun a => py_in a cl)
    season_reference := none
    problem_mentioned :=
      ["disease", "pest", "drought", "rain", "problem"].any (fun p => py_in p cl) }

/-! ### Relevance engine (`_calculate_enhanced_relevance` and helpers) -/

/-- A raw vector-index hit as formatted by `search_similar_conversations`.
`timestamp_days_ago` externalizes `(utcnow - fromisoformat(timestamp)).days`
(present iff the payload carried a parseable `timestamp` key); `session_id` is
`none` when the payload's `session_id` is absent or falsy. -/
structure MemoryCandidate where
  content : String
  similarity_score : ℚ
  timestamp_days_ago : Option ℤ
  session_id : Option String
  deriving DecidableEq, Repr

/-- The `factors` dict filled in by `_calculate_enhanced_relevance`. -/
structure RelevanceFactors where
  semantic_similarity : ℚ
  recency_score : ℚ
  frequency_score : ℚ
  topic_alignment : ℚ
  context_continuity : ℚ
  total_score : ℚ
  deriving DecidableEq, Repr

/-- `min(1.0, max(0.0, x))` — the clamp the spec describes. -/
def clamp01 (x : ℚ) : ℚ := min 1 (max 0 x)

/-- Recency factor: `max(0, 1 - days_ago/30)` when a timestamp was present,
the initial `0.0` otherwise. -/
def recency_score_of (timestamp_days_ago : Option ℤ) : ℚ :=
  match timestamp_days_ago with
  | none => 0
  | some d => max 0 (1 - (d : ℚ) / 30)

/-- `_calculate_topic_alignment`: `0.3` when either topic list is empty, else
`min(1, |common| / max(|query_topics|, 1))` where `common` is the set
intersection (both extracted lists are duplicate-free by construction). -/
def calculate_topic_alignment (memory_content current_query : String) : ℚ :=
  let memory_topics := extract_farming_topics memory_content
  let query_topics := extract_farming_topics current_query
  if memory_topics.isEmpty || query_topics.isEmpty then 3/10
  else
    let common := query_topics.filter (fun t => memory_topics.contains t)
    min 1 ((common.length : ℚ) / (max query_topics.length 1 : ℕ))

/-- `_calculate_context_continuity`: `0.3` for a missing/falsy session id or a
failed repository lookup (externalized as `recent_count = none`), else `0.8`
for more than one recent message in the session, `0.6` for exactly one,
`0.3` for zero. -/
def calculate_context_continuity (session_id : Option String) (recent_count : Option ℕ) : ℚ :=
  match session_id with
  | none => 3/10
  | some _ =>
    match recent_count with
    | none => 3/10
    | some n => if 1 < n then 8/10 else if n = 1 then 6/10 else 3/10

/-- `_calculate_enhanced_relevance`.  `recent_count` externalizes the session
lookup used by the continuity factor; `calc_error` externalizes an exception
escaping the inner `try` (its first statement is the timestamp parse, so the
non-semantic factors keep their `0.0` initialization and `total_score` falls
back to the raw semantic similarity). -/
def calculate_enhanced_relevance (memory : MemoryCandidate) (current_query : String)
    (recent_count : Option ℕ) (calc_error : Bool) : RelevanceFactors :=
  let sem := memory.similarity_score
  if calc_error then
    { semantic_similarity := sem, recency_score := 0, frequency_score := 0,
      topic_alignment := 0, context_continuity := 0, total_score := sem }
  else
    let recency := recency_score_of memory.timestamp_days_ago
    let topic := calculate_topic_alignment memory.content current_query
    let continuity := calculate_context_continuity memory.session_id recent_count
    let total := sem * (4/10) + recency * (15/100) + 0 * (1/10)
      + topic * (2/10) + continuity * (15/100)
    { semantic_similarity := sem, recency_score := recency, frequency_score := 0,
      topic_alignment := topic, context_continuity := continuity,
      total_score := min 1 total }

/-! ### Stable descending sort (Python `list.sort(key=..., reverse=True)`) -/

/-- Insert `x` into `l` before the first element whose key is `≤ key x`
(all elements with strictly larger key stay in front).  This is the insertion
step of a stable descending sort: among equal keys, earlier input stays first. -/
def insert_by_desc (key : α → ℚ) (x : α) : List α → List α
  | [] => [x]
  | y :: ys => if key x < key y then y :: insert_by_desc key x ys else x :: y :: ys

/-- Stable sort, descending by `key` — the semantics of CPython's stable
`list.sort(key=..., reverse=True)`. -/
def stable_sort_desc (key : α → ℚ) : List α → List α
  | [] => []
  | x :: xs => insert_by_desc key x (stable_sort_desc key xs)

/-! ### `_enhance_memory_relevance` -/

/-- Externalized per-candidate environment: the continuity lookup result, the
inner-`try` error flag, and whether the per-candidate enhancement itself raised
(in which case the candidate is appended unenhanced). -/
structure EnhanceEnv where
  recent_count : Option ℕ
  calc_error : Bool
  enhance_failed : Bool
  deriving DecidableEq, Repr

/-- An element of the list built by `_enhance_memory_relevance`: the original
dict plus, when enhancement succeeded, the added keys. -/
structure EnhancedMemory where
  mem : MemoryCandidate
  enhanced_relevance : Option ℚ
  relevance_factors : Option RelevanceFactors
  memory_type : Option String
  key_entities : Option (List String)
  farming_context : Option FarmingContext
  deriving DecidableEq, Repr

/-- Processing of one candidate inside the `for` loop of
`_enhance_memory_relevance`. -/
def enhance_one (current_query : String) (item : MemoryCandidate × EnhanceEnv) :
    EnhancedMemory :=
  let (memory, env) := item
  if env.enhance_failed then
    { mem := memory, enhanced_relevance := none, relevance_factors := none,
      memory_type := none, key_entities := none, farming_context := none }
  else
    let factors := calculate_enhanced_relevance memory current_query
      env.recent_count env.calc_error
    { mem := memory
      enhanced_relevance := some factors.total_score
      relevance_factors := some factors
      memory_type := some (classify_memory_type memory.content)
      key_entities := some (extract_key_entities memory.content)
      farming_context := some (extract_farming_context memory.content) }

/-- The sort key `x.get("enhanced_relevance", 0)`. -/
def enhance_sort_key (e : EnhancedMemory) : ℚ :=
  e.enhanced_relevance.getD 0

/-- `_enhance_memory_relevance`: enhance each candidate (appending it
unenhanced when its enhancement raises), then stably sort descending by the
`enhanced_relevance` key, defaulting to `0`. -/
def enhance_memory_relevance (current_query : String)
    (items : List (MemoryCandidate × EnhanceEnv)) : List EnhancedMemory :=
  stable_sort_desc enhance_sort_key (items.map (enhance_one current_query))

/-! ### Context confidence and summary (`_calculate_context_confidence`,
`_build_context_summary`) -/

/-- The per-memory score used by the confidence calculation:
`memory.get("enhanced_relevance", memory.get("similarity_score", 0))`. -/
def confidence_relevance (e : EnhancedMemory) : ℚ :=
  e.enhanced_relevance.getD e.mem.similarity_score

/-- `_calculate_context_confidence`: `0.0` for no memories, else the average
relevance plus a quality boost `min(0.2, 0.1 * count(score > 0.7))`, capped
at `1`. -/
def calculate_context_confidence (memories : List EnhancedMemory) : ℚ :=
  if memories.isEmpty then 0
  else
    let scores := memories.map confidence_relevance
    let avg := scores.sum / (scores.length : ℚ)
    let boost := min (2/10) (((scores.filter (fun s => 7/10 < s)).length : ℚ) * (1/10))
    min 1 (avg + boost)

/-- First-occurrence deduplication; models Python's `list(set(...))` up to the
(unspecified) set iteration order. -/
def dedup_first [DecidableEq α] (seen : List α) : List α → List α
  | [] => []
  | a :: l => if a ∈ seen then dedup_first seen l else a :: dedup_first (a :: seen) l

/-- A mined insight (`MemoryInsight` dataclass).  Timestamps are modelled at
day granularity as integers. -/
structure MemoryInsight where
  topic : String
  summary : String
  importance_score : ℚ
  related_conversations : List String
  first_mentioned : ℤ
  last_mentioned : ℤ
  frequency : ℕ
  deriving DecidableEq, Repr

/-- `_build_context_summary`: crop names from the top-3 memories (unenhanced
entries contribute nothing — `get("farming_context", {})` on them yields no
crops), then topics of the top-2 insights, joined with `"; "`. -/
def build_context_summary (memories : List EnhancedMemory)
    (insights : List MemoryInsight) : String :=
  if memories.isEmpty && insights.isEmpty then ""
  else
    let recent_topics := (memories.take 3).flatMap
      (fun m => ((m.farming_context).map FarmingContext.crop_mentioned).getD [])
    let memory_parts :=
      if memories.isEmpty then []
      else if recent_topics.isEmpty then []
      else ["Recent conversations about: "
        ++ String.intercalate ", " (dedup_first [] recent_topics)]
    let insight_parts :=
      if insights.isEmpty then []
      else
        let insight_topics := (insights.take 2).map MemoryInsight.topic
        if insight_topics.isEmpty then []
        else ["Key farming insights: " ++ String.intercalate ", " insight_topics]
    String.intercalate "; " (memory_parts ++ insight_parts)

/-! ### Context composer (`get_intelligent_memory_context`) -/

/-- The dict returned by `get_intelligent_memory_context`. -/
structure MemoryContext where
  relevant_memories : List EnhancedMemory
  memory_insights : List MemoryInsight
  context_summary : String
  total_memories_found : ℕ
  confidence_score : ℚ
  deriving DecidableEq, Repr

/-- The fallback context built by the outer `except` handler. -/
def empty_memory_context : MemoryContext :=
  { relevant_memories := [], memory_insights := [], context_summary := "",
    total_memories_found := 0, confidence_score := 0 }

/-- `get_intelligent_memory_context`.  `embedder_ok = false` models a raising
encoder: `search_similar_conversations` catches every exception itself and
returns `[]`, so the pipeline continues with an empty candidate list.
`body_raises` models an exception escaping any step inside the outer `try`,
which the `except` converts to `empty_memory_context`.  `index_hits` are the
vector-index results (each with its externalized enhancement environment) and
`insights` is the miner's result (`[]` when `include_insights` is false). -/
def get_intelligent_memory_context (embedder_ok : Bool)
    (index_hits : List (MemoryCandidate × EnhanceEnv)) (body_raises : Bool)
    (include_insights : Bool) (insights : List MemoryInsight)
    (query : String) (max_memories : ℕ) : MemoryContext :=
  if body_raises then empty_memory_context
  else
    let relevant_memories := if embedder_ok then index_hits else []
    let enhanced_memories := enhance_memory_relevance query relevant_memories
    let used_insights := if include_insights then insights else []
    { relevant_memories := enhanced_memories.take max_memories
      memory_insights := used_insights
      context_summary := build_context_summary enhanced_memories used_insights
      total_memories_found := relevant_memories.length
      confidence_score := calculate_context_confidence enhanced_memories }

/-! ### Insight miner (`get_memory_insights`, `_analyze_conversation_patterns`,
`_calculate_insight_importance`) -/

/-- A row of the user-message query feeding the insight miner
(`content, created_at, session_id`), with `created_at` at day granularity. -/
structure ConvRow where
  content : String
  created_at : ℤ
  session_id : String
  deriving DecidableEq, Repr

/-- Smallest element of an integer list (`min(...)`; `0` for `[]`, which the
caller excludes). -/
def min_ts : List ℤ → ℤ
  | [] => 0
  | t :: ts => ts.foldl min t

/-- Largest element of an integer list (`max(...)`). -/
def max_ts : List ℤ → ℤ
  | [] => 0
  | t :: ts => ts.foldl max t

/-- `_calculate_insight_importance`: weighted mix of frequency, recency and
consistency scores, capped at `1`. -/
def calculate_insight_importance (frequency : ℕ)
    (first_mentioned last_mentioned now : ℤ) : ℚ :=
  let frequency_part := min 1 ((frequency : ℚ) / 10)
  let recency_part := max 0 (1 - ((now - last_mentioned : ℤ) : ℚ) / 30)
  let consistency_part := min 1 (((last_mentioned - first_mentioned : ℤ) : ℚ) / 14)
  min 1 (frequency_part * (4/10) + recency_part * (35/100) + consistency_part * (25/100))

/-- `_analyze_conversation_patterns`: bucket rows by extracted topic
(`defaultdict` preserves first-insertion order), skip topics with fewer than 2
rows, and build one insight per surviving topic.  `summarize` externalizes
`_generate_topic_summary` (an LLM call with a templated fallback). -/
def analyze_conversation_patterns (now : ℤ) (summarize : String → List ConvRow → String)
    (conversation_data : List ConvRow) : List MemoryInsight :=
  let topics_in_order :=
    dedup_first [] (conversation_data.flatMap (fun r => extract_farming_topics r.content))
  topics_in_order.filterMap (fun topic =>
    let conversations := conversation_data.filter
      (fun r => (extract_farming_topics r.content).contains topic)
    if conversations.length < 2 then none
    else
      let frequency := conversations.length
      let first_mentioned := min_ts (conversations.map ConvRow.created_at)
      let last_mentioned := max_ts (conversations.map ConvRow.created_at)
      some { topic := topic
             summary := summarize topic conversations
             importance_score :=
               calculate_insight_importance frequency first_mentioned last_mentioned now
             related_conversations := conversations.map ConvRow.session_id
             first_mentioned := first_mentioned
             last_mentioned := last_mentioned
             frequency := frequency })

/-- `get_memory_insights`: analyze the trailing window of user messages, keep
insights with `frequency ≥ min_frequency` and `importance > 0.5`, sort
descending by importance (stable), truncate to `limit`. -/
def get_memory_insights (now : ℤ) (limit : ℕ) (min_frequency : ℕ)
    (summarize : String → List ConvRow → String)
    (conversation_data : List ConvRow) : List MemoryInsight :=
  if conversation_data.isEmpty then []
  else
    let insights := analyze_conversation_patterns now summarize conversation_data
    let filtered := insights.filter
      (fun i => min_frequency ≤ i.frequency ∧ 1/2 < i.importance_score)
    (stable_sort_desc MemoryInsight.importance_score filtered).take limit

/-! ### Session consolidation (`consolidate_session_memory`,
`_generate_conversation_summary`, `_fallback_conversation_analysis`) -/

/-- A row of the session-message query
(`content, message_type, created_at, tokens_used`); `created_at` in seconds. -/
structure MessageRow where
  content : String
  message_type : String
  created_at : ℤ
  tokens_used : ℕ
  deriving DecidableEq, Repr

/-- The structured pieces parsed out of the LLM reply (or the fallback). -/
structure SummaryParts where
  summary : String
  key_topics : List String
  action_items : List String
  farming_insights : List String
  emotional_tone : String
  deriving DecidableEq, Repr

/-- The `ConversationSummary` dataclass. -/
structure ConversationSummary where
  session_id : String
  summary : String
  key_topics : List String
  action_items : List String
  farming_insights : List String
  emotional_tone : String
  message_count : ℕ
  duration_minutes : ℤ
  deriving DecidableEq, Repr

/-- `_fallback_conversation_analysis`: taxonomy topics over the concatenated
transcript, templated one-line summary, empty lists, professional tone. -/
def fallback_conversation_analysis (message_data : List MessageRow) : SummaryParts :=
  let user_messages := message_data.filter (fun r => r.message_type = "user")
  let all_content := String.intercalate " " (message_data.map MessageRow.content)
  let topics := extract_farming_topics all_content
  { summary := "Conversation about "
      ++ (if topics.isEmpty then "general farming"
          else String.intercalate ", " (topics.take 3))
      ++ " with " ++ toString user_messages.length ++ " farmer questions."
    key_topics := topics.take 5
    action_items := []
    farming_insights := []
    emotional_tone := "professional" }

/-- The outcome of the LLM call inside `_generate_conversation_summary`: the
generation call raises or the reply is not JSON (only a generation exception
or `json.JSONDecodeError` triggers the fallback); or the reply parses as a
JSON object carrying all five schema keys (modelled by its five extracted
values); or it parses but is not such an object — for example the literal
`"{}"`, which is also the hard-coded default for a missing `content` key, or
a JSON array. -/
inductive LlmReply where
  | parse_error : LlmReply
  | parsed_complete (parts : SummaryParts) : LlmReply
  | parsed_incomplete : LlmReply
  deriving DecidableEq, Repr

/-- What `_generate_conversation_summary` hands back to its caller: either a
dict holding every schema key, or a parsed-but-wrong-shape value whose field
accesses will raise `KeyError`/`TypeError` in the caller. -/
inductive ParsedSummary where
  | complete (parts : SummaryParts) : ParsedSummary
  | incomplete : ParsedSummary
  deriving DecidableEq, Repr

/-- `_generate_conversation_summary`: a generation error or a reply that does
not parse as JSON degrades to `_fallback_conversation_analysis` (which always
carries every key); a reply that parses is returned verbatim — complete or
not. -/
def generate_conversation_summary (reply : LlmReply)
    (message_data : List MessageRow) : ParsedSummary :=
  match reply with
  | .parse_error => .complete (fallback_conversation_analysis message_data)
  | .parsed_complete parts => .complete parts
  | .parsed_incomplete => .incomplete

/-- `consolidate_session_memory` on the successful-repository path: rows are
the session's stored messages ordered ascending by `created_at`.  Fewer than
2 rows yields the explicit `None` ("not eligible").  With a
schema-incomplete parsed reply, `summary["summary"]` raises and the outer
`except` returns the same `None`.  Otherwise a `ConversationSummary` with
`duration_minutes = int(total_seconds / 60)`. -/
def consolidate_session_memory (session_id : String) (reply : LlmReply)
    (message_data : List MessageRow) : Option ConversationSummary :=
  match message_data with
  | [] => none
  | [_] => none
  | r0 :: r1 :: rest =>
    let last_row := (r1 :: rest).getLast (List.cons_ne_nil r1 rest)
    match generate_conversation_summary reply (r0 :: r1 :: rest) with
    | .incomplete => none
    | .complete parts =>
      some { session_id := session_id
             summary := parts.summary
             key_topics := parts.key_topics
             action_items := parts.action_items
             farming_insights := parts.farming_insights
             emotional_tone := parts.emotional_tone
             message_count := (r0 :: r1 :: rest).length
             duration_minutes := Int.tdiv (last_row.created_at - r0.created_at) 60 }

/-! ### Embedding gateway text cleaning (`_clean_text`) -/

/-- Python `str.isspace()` for the ASCII whitespace the cleaner can meet. -/
def is_py_space (c : Char) : Bool :=
  c = ' ' || c = '\t' || c = '\n' || c = '\r' || c = '\x0b' || c = '\x0c'

/-- Python `str.strip()`: drop leading and trailing whitespace. -/
def py_strip (s : List Char) : List Char :=
  ((s.dropWhile is_py_space).reverse.dropWhile is_py_space).reverse

/-- Worker for `str.split()` (no separator): accumulate the current word,
breaking on whitespace runs and dropping empty pieces. -/
def split_ws_aux : List Char → List Char → List (List Char)
  | [], acc => if acc.isEmpty then [] else [acc.reverse]
  | c :: cs, acc =>
    if is_py_space c then
      if acc.isEmpty then split_ws_aux cs [] else acc.reverse :: split_ws_aux cs []
    else split_ws_aux cs (c :: acc)

/-- Python `str.split()` with no separator. -/
def split_ws (s : List Char) : List (List Char) :=
  split_ws_aux s []

/-- Python `" ".join(words)`. -/
def space_join : List (List Char) → List Char
  | [] => []
  | [w] => w
  | w :: w2 :: ws => w ++ ' ' :: space_join (w2 :: ws)

/-- `_clean_text`: strip, collapse inner whitespace via
`" ".join(cleaned.split())`, and when the result exceeds 2000 characters keep
the first 2000 and append `"..."`. -/
def clean_text (text : List Char) : List Char :=
  let cleaned := space_join (split_ws (py_strip text))
  if 2000 < cleaned.length then cleaned.take 2000 ++ ['.', '.', '.']
  else cleaned

/-! ### Concrete fixtures used by witnesses and counterexamples -/

/-- The §8 scenario candidate: message A with raw similarity `0.82`, two days
old, from an existing session. -/
def c1_memory : MemoryCandidate :=
  { content := "brown spots on leaves, is this CLR?"
    similarity_score := 82/100
    timestamp_days_ago := some 2
    session_id := some "session-a" }

/-- Candidate whose enhancement succeeds (empty content, similarity 0.5). -/
def c10_memory_ok : MemoryCandidate :=
  { content := "", similarity_score := 1/2, timestamp_days_ago := none,
    session_id := none }

/-- Candidate whose per-candidate enhancement raises (higher raw similarity). -/
def c10_memory_failed : MemoryCandidate :=
  { content := "", similarity_score := 9/10, timestamp_days_ago := none,
    session_id := none }

/-- Input batch: the failing candidate precedes the succeeding one. -/
def c10_items : List (MemoryCandidate × EnhanceEnv) :=
  [(c10_memory_failed, { recent_count := none, calc_error := false, enhance_failed := true }),
   (c10_memory_ok, { recent_count := none, calc_error := false, enhance_failed := false })]

/-- The unenhanced output entry for `c10_memory_failed`. -/
def c10_raw_entry : EnhancedMemory :=
  { mem := c10_memory_failed, enhanced_relevance := none, relevance_factors := none,
    memory_type := none, key_entities := none, farming_context := none }

/-- The factors computed for `c10_memory_ok` against the empty query. -/
def c10_factors : RelevanceFactors :=
  { semantic_similarity := 1/2, recency_score := 0, frequency_score := 0,
    topic_alignment := 3/10, context_continuity := 3/10, total_score := 61/200 }

/-- The farming context extracted from empty content. -/
def empty_farming_context : FarmingContext :=
  { crop_mentioned := [], activity_type := none, season_reference := none,
    problem_mentioned := false }

/-- The enhanced output entry for `c10_memory_ok`. -/
def c10_enhanced_entry : EnhancedMemory :=
  { mem := c10_memory_ok, enhanced_relevance := some (61/200),
    relevance_factors := some c10_factors,
    memory_type := some "general_conversation", key_entities := some [],
    farming_context := some empty_farming_context }

/-- A two-message session, 120 seconds apart. -/
def c5_messages : List MessageRow :=
  [{ content := "My coffee leaves have brown spots", message_type := "user",
     created_at := 0, tokens_used := 12 },
   { content := "That could be coffee leaf rust", message_type := "assistant",
     created_at := 120, tokens_used := 18 }]

/-- Two user messages about coffee, 14 days apart, analysed on day 14. -/
def c6_data : List ConvRow :=
  [{ content := "coffee", created_at := 14, session_id := "s1" },
   { content := "coffee", created_at := 0, session_id := "s2" }]

/-- The single insight mined from `c6_data` (frequency 2, importance 0.68). -/
def c6_insight : MemoryInsight :=
  { topic := "coffee", summary := "", importance_score := 17/25,
    related_conversations := ["s1", "s2"], first_mentioned := 0,
    last_mentioned := 14, frequency := 2 }

/-- A qualifying mined insight about pests, available while the embedder is
down. -/
def c7_insight : MemoryInsight :=
  { topic := "pests", summary := "recurring leaf rust questions",
    importance_score := 1, related_conversations := ["s1", "s2"],
    first_mentioned := 0, last_mentioned := 14, frequency := 2 }

/-! ### Helper lemmas: stable descending sort -/

theorem mem_insert_by_desc {key : α → ℚ} {x z : α} :
    ∀ {l : List α}, z ∈ insert_by_desc key x l ↔ z = x ∨ z ∈ l
  | [] => by simp [insert_by_desc]
  | y :: ys => by
    rw [insert_by_desc]
    split
    · simp only [List.mem_cons, mem_insert_by_desc (l := ys)]
      tauto
    · simp only [List.mem_cons]

theorem sorted_insert_by_desc {key : α → ℚ} (x : α) :
    ∀ {l : List α}, l.Sorted (fun a b => key b ≤ key a) →
      (insert_by_desc key x l).Sorted (fun a b => key b ≤ key a)
  | [], _ => by simp [insert_by_desc]
  | y :: ys, h => by
    rw [List.sorted_cons] at h
    rw [insert_by_desc]
    split
    · rename_i hxy
      rw [List.sorted_cons]
      refine ⟨fun b hb => ?_, sorted_insert_by_desc x h.2⟩
      rcases mem_insert_by_desc.mp hb with hb | hb
      · exact hb ▸ le_of_lt hxy
      · exact h.1 b hb
    · rename_i hxy
      rw [List.sorted_cons]
      refine ⟨fun b hb => ?_, List.sorted_cons.mpr h⟩
      rcases List.mem_cons.mp hb with hb | hb
      · exact hb ▸ le_of_not_lt hxy
      · exact le_trans (h.1 b hb) (le_of_not_lt hxy)

theorem sorted_stable_sort_desc (key : α → ℚ) :
    ∀ l : List α, (stable_sort_desc key l).Sorted (fun a b => key b ≤ key a)
  | [] => by simp [stable_sort_desc]
  | x :: xs => sorted_insert_by_desc x (sorted_stable_sort_desc key xs)

theorem mem_stable_sort_desc {key : α → ℚ} {z : α} :
    ∀ {l : List α}, z ∈ stable_sort_desc key l ↔ z ∈ l
  | [] => Iff.rfl
  | x :: xs => by
    rw [stable_sort_desc, mem_insert_by_desc, List.mem_cons,
      mem_stable_sort_desc (l := xs)]

theorem filter_insert_by_desc (key : α → ℚ) (k : ℚ) (x : α) :
    ∀ l : List α,
      (insert_by_desc key x l).filter (fun y => key y = k)
        = if key x = k then x :: l.filter (fun y => key y = k)
          else l.filter (fun y => key y = k)
  | [] => by
    simp only [insert_by_desc, List.filter]
    by_cases hxk : key x = k <;> simp [hxk]
  | y :: ys => by
    rw [insert_by_desc]
    split
    · rename_i hxy
      by_cases hyk : key y = k
      · have hxk : ¬ key x = k := by
          intro hxk
          exact absurd (hxk.trans hyk.symm ▸ hxy) (lt_irrefl _)
        simp only [List.filter_cons, hyk, hxk, decide_eq_true_eq]
        rw [filter_insert_by_desc key k x ys]
        simp [hxk, hyk]
      · simp only [List.filter_cons]
        rw [filter_insert_by_desc key k x ys]
        by_cases hxk : key x = k <;> simp [hxk, hyk]
    · simp only [List.filter_cons]
      by_cases hxk : key x = k <;> by_cases hyk : key y = k <;>
        simp [hxk, hyk, List.filter_cons]

theorem filter_stable_sort_desc (key : α → ℚ) (k : ℚ) :
    ∀ l : List α,
      (stable_sort_desc key l).filter (fun y => key y = k)
        = l.filter (fun y => key y = k)
  | [] => rfl
  | x :: xs => by
    rw [stable_sort_desc, filter_insert_by_desc key k x (stable_sort_desc key xs),
      filter_stable_sort_desc key k xs]
    by_cases hxk : key x = k <;> simp [hxk, List.filter_cons]

/-! ### Helper lemmas: relevance factors -/

theorem recency_score_of_nonneg (d : Option ℤ) : 0 ≤ recency_score_of d := by
  cases d with
  | none => exact le_refl 0
  | some v => exact le_max_left 0 _

theorem calculate_topic_alignment_nonneg (a b : String) :
    0 ≤ calculate_topic_alignment a b := by
  by_cases h : (extract_farming_topics a).isEmpty || (extract_farming_topics b).isEmpty
  · simp only [calculate_topic_alignment, h, if_true]
    norm_num
  · simp only [calculate_topic_alignment, h, if_false]
    exact le_min (by norm_num) (by positivity)

theorem calculate_context_continuity_nonneg (sid : Option String) (rc : Option ℕ) :
    0 ≤ calculate_context_continuity sid rc := by
  unfold calculate_context_continuity
  rcases sid with _ | s
  · norm_num
  · rcases rc with _ | n
    · norm_num
    · dsimp only
      split
      · norm_num
      · split <;> norm_num

theorem calculate_enhanced_relevance_weighted_sum_nonneg (memory : MemoryCandidate)
    (current_query : String) (recent_count : Option ℕ)
    (h0 : 0 ≤ memory.similarity_score) :
    0 ≤ memory.similarity_score * (4/10)
      + recency_score_of memory.timestamp_days_ago * (15/100) + 0 * (1/10)
      + calculate_topic_alignment memory.content current_query * (2/10)
      + calculate_context_continuity memory.session_id recent_count * (15/100) := by
  have h1 := recency_score_of_nonneg memory.timestamp_days_ago
  have h2 := calculate_topic_alignment_nonneg memory.content current_query
  have h3 := calculate_context_continuity_nonneg memory.session_id recent_count
  have n1 : (0:ℚ) ≤ 4/10 := by norm_num
  have n2 : (0:ℚ) ≤ 15/100 := by norm_num
  have n3 : (0:ℚ) ≤ 2/10 := by norm_num
  exact add_nonneg
    (add_nonneg
      (add_nonneg (add_nonneg (mul_nonneg h0 n1) (mul_nonneg h1 n2)) (by norm_num))
      (mul_nonneg h2 n3))
    (mul_nonneg h3 n2)

/-- Claim C1: on the success path of `_calculate_enhanced_relevance` (no
per-factor exception), given a non-negative raw index similarity the
`total_score` equals the clamped weighted sum
`clamp01(0.4·semantic + 0.15·recency + 0.1·frequency + 0.2·topic_alignment +
0.15·continuity)`, with the `frequency_score` factor identically `0` in this
single-query path. -/
theorem calculate_enhanced_relevance_total_is_clamped_weighted_sum
    (memory : MemoryCandidate) (current_query : String) (recent_count : Option ℕ)
    (h0 : 0 ≤ memory.similarity_score) (factors : RelevanceFactors)
    (hf : factors = calculate_enhanced_relevance memory current_query recent_count false) :
    factors.frequency_score = 0 ∧
    factors.total_score = clamp01 ((4/10) * factors.semantic_similarity
      + (15/100) * factors.recency_score + (1/10) * factors.frequency_score
      + (2/10) * factors.topic_alignment + (15/100) * factors.context_continuity) := by
  subst hf
  refine ⟨rfl, ?_⟩
  show min 1 (memory.similarity_score * (4/10)
      + recency_score_of memory.timestamp_days_ago * (15/100) + 0 * (1/10)
      + calculate_topic_alignment memory.content current_query * (2/10)
      + calculate_context_continuity memory.session_id recent_count * (15/100))
    = clamp01 ((4/10) * memory.similarity_score
      + (15/100) * recency_score_of memory.timestamp_days_ago + (1/10) * 0
      + (2/10) * calculate_topic_alignment memory.content current_query
      + (15/100) * calculate_context_continuity memory.session_id recent_count)
  have hsum := calculate_enhanced_relevance_weighted_sum_nonneg memory current_query
    recent_count h0
  rw [clamp01]
  have hcomm : (4/10) * memory.similarity_score
      + (15/100) * recency_score_of memory.timestamp_days_ago + (1/10) * 0
      + (2/10) * calculate_topic_alignment memory.content current_query
      + (15/100) * calculate_context_continuity memory.session_id recent_count
    = memory.similarity_score * (4/10)
      + recency_score_of memory.timestamp_days_ago * (15/100) + 0 * (1/10)
      + calculate_topic_alignment memory.content current_query * (2/10)
      + calculate_context_continuity memory.session_id recent_count * (15/100) := by
    ring
  rw [hcomm, max_eq_right hsum]

/-- Witness for C1 at the §8 scenario candidate and query. -/
theorem calculate_enhanced_relevance_total_is_clamped_weighted_sum_witness :
    0 ≤ c1_memory.similarity_score ∧
    ((calculate_enhanced_relevance c1_memory "My coffee plants have orange spots"
        (some 2) false).frequency_score = 0 ∧
      (calculate_enhanced_relevance c1_memory "My coffee plants have orange spots"
        (some 2) false).total_score
        = clamp01 ((4/10) * (calculate_enhanced_relevance c1_memory
              "My coffee plants have orange spots" (some 2) false).semantic_similarity
          + (15/100) * (calculate_enhanced_relevance c1_memory
              "My coffee plants have orange spots" (some 2) false).recency_score
          + (1/10) * (calculate_enhanced_relevance c1_memory
              "My coffee plants have orange spots" (some 2) false).frequency_score
          + (2/10) * (calculate_enhanced_relevance c1_memory
              "My coffee plants have orange spots" (some 2) false).topic_alignment
          + (15/100) * (calculate_enhanced_relevance c1_memory
              "My coffee plants have orange spots" (some 2) false).context_continuity)) :=
  ⟨by norm_num [c1_memory],
    calculate_enhanced_relevance_total_is_clamped_weighted_sum c1_memory
      "My coffee plants have orange spots" (some 2) (by norm_num [c1_memory]) _ rfl⟩

/-- Claim C2: whether the per-factor computation succeeds or hits the error
fallback (`total_score := raw semantic similarity`), the resulting
`total_score` lies in `[0,1]` whenever the raw index similarity does. -/
theorem calculate_enhanced_relevance_total_in_unit_interval
    (memory : MemoryCandidate) (current_query : String) (recent_count : Option ℕ)
    (calc_error : Bool)
    (h0 : 0 ≤ memory.similarity_score) (h1 : memory.similarity_score ≤ 1) :
    0 ≤ (calculate_enhanced_relevance memory current_query recent_count
        calc_error).total_score ∧
    (calculate_enhanced_relevance memory current_query recent_count
        calc_error).total_score ≤ 1 := by
  cases calc_error with
  | true => exact ⟨h0, h1⟩
  | false =>
    have hsum := calculate_enhanced_relevance_weighted_sum_nonneg memory current_query
      recent_count h0
    constructor
    · show 0 ≤ min 1 (memory.similarity_score * (4/10)
        + recency_score_of memory.timestamp_days_ago * (15/100) + 0 * (1/10)
        + calculate_topic_alignment memory.content current_query * (2/10)
        + calculate_context_continuity memory.session_id recent_count * (15/100))
      exact le_min (by norm_num) hsum
    · show min 1 (memory.similarity_score * (4/10)
        + recency_score_of memory.timestamp_days_ago * (15/100) + 0 * (1/10)
        + calculate_topic_alignment memory.content current_query * (2/10)
        + calculate_context_continuity memory.session_id recent_count * (15/100)) ≤ 1
      exact min_le_left _ _

/-- Witness for C2 at the §8 scenario candidate, on the error-fallback path. -/
theorem calculate_enhanced_relevance_total_in_unit_interval_witness :
    (0 ≤ c1_memory.similarity_score ∧ c1_memory.similarity_score ≤ 1) ∧
    (0 ≤ (calculate_enhanced_relevance c1_memory "My coffee plants have orange spots"
        none true).total_score ∧
      (calculate_enhanced_relevance c1_memory "My coffee plants have orange spots"
        none true).total_score ≤ 1) :=
  ⟨⟨by norm_num [c1_memory], by norm_num [c1_memory]⟩,
    calculate_enhanced_relevance_total_in_unit_interval c1_memory
      "My coffee plants have orange spots" none true
      (by norm_num [c1_memory]) (by norm_num [c1_memory])⟩

/-- Claim C3: the list returned by `_enhance_memory_relevance` is ordered
non-increasing by the enhanced-relevance sort key, and the candidates with any
given key value appear in exactly their input (enhancement) order — Python's
`list.sort` is stable, also with `reverse=True`. -/
theorem enhance_memory_relevance_sorted_and_stable (current_query : String)
    (items : List (MemoryCandidate × EnhanceEnv)) :
    (enhance_memory_relevance current_query items).Sorted
      (fun a b => enhance_sort_key b ≤ enhance_sort_key a) ∧
    ∀ k : ℚ,
      (enhance_memory_relevance current_query items).filter
          (fun e => enhance_sort_key e = k)
        = (items.map (enhance_one current_query)).filter
          (fun e => enhance_sort_key e = k) :=
  ⟨sorted_stable_sort_desc _ _, fun k => filter_stable_sort_desc enhance_sort_key k _⟩

/-- Claim C10: a candidate appended unenhanced (its per-candidate enhancement
raised, so the `enhanced_relevance` key is absent and the sort treats it as
`0`) ends up strictly after every enhanced candidate with positive
`total_score`, whatever its raw similarity. -/
theorem enhance_memory_relevance_unenhanced_after_positive
    (current_query : String) (items : List (MemoryCandidate × EnhanceEnv))
    (i j : ℕ) (e₁ e₂ : EnhancedMemory) (s : ℚ)
    (h1 : (enhance_memory_relevance current_query items)[i]? = some e₁)
    (h2 : e₁.enhanced_relevance = none)
    (h3 : (enhance_memory_relevance current_query items)[j]? = some e₂)
    (h4 : e₂.enhanced_relevance = some s) (h5 : 0 < s) :
    j < i := by
  have hsorted : (enhance_memory_relevance current_query items).Sorted
      (fun a b => enhance_sort_key b ≤ enhance_sort_key a) :=
    sorted_stable_sort_desc _ _
  obtain ⟨hi, hgi⟩ := List.getElem?_eq_some_iff.mp h1
  obtain ⟨hj, hgj⟩ := List.getElem?_eq_some_iff.mp h3
  rcases Nat.lt_trichotomy j i with h | h | h
  · exact h
  · exfalso
    subst h
    rw [hgi] at hgj
    subst hgj
    rw [h2] at h4
    exact Option.noConfusion h4
  · exfalso
    have hrel := List.pairwise_iff_get.mp hsorted ⟨i, hi⟩ ⟨j, hj⟩ h
    simp only [List.get_eq_getElem, hgi, hgj] at hrel
    rw [enhance_sort_key, enhance_sort_key, h2, h4] at hrel
    simp only [Option.getD_some, Option.getD_none] at hrel
    exact absurd (lt_of_lt_of_le h5 hrel) (lt_irrefl 0)

/-- Witness for C10: on `c10_items` the enhanced candidate (score `0.305`)
sorts to position 0 and the unenhanced one (raw similarity `0.9`) to
position 1. -/
theorem enhance_memory_relevance_unenhanced_after_positive_witness :
    ((enhance_memory_relevance "" c10_items)[1]? = some c10_raw_entry
      ∧ c10_raw_entry.enhanced_relevance = none
      ∧ (enhance_memory_relevance "" c10_items)[0]? = some c10_enhanced_entry
      ∧ c10_enhanced_entry.enhanced_relevance = some (61/200)
      ∧ (0:ℚ) < 61/200)
    ∧ 0 < 1 := by
  have h1 : extract_farming_topics "" = [] := by decide
  have h2 : classify_memory_type "" = "general_conversation" := by decide
  have h3 : extract_key_entities "" = [] := by decide
  have h4 : extract_farming_context "" = empty_farming_context := by decide
  have hlist : enhance_memory_relevance "" c10_items
      = [c10_enhanced_entry, c10_raw_entry] := by
    norm_num [enhance_memory_relevance, enhance_one, c10_items, c10_memory_ok,
      c10_memory_failed, calculate_enhanced_relevance, calculate_topic_alignment,
      h1, h2, h3, h4, calculate_context_continuity, recency_score_of,
      stable_sort_desc, insert_by_desc, enhance_sort_key, c10_enhanced_entry,
      c10_raw_entry, c10_factors]
  refine ⟨⟨by rw [hlist]; rfl, rfl, by rw [hlist]; rfl, rfl, by norm_num⟩, ?_⟩
  exact enhance_memory_relevance_unenhanced_after_positive "" c10_items 1 0
    c10_raw_entry c10_enhanced_entry (61/200)
    (by rw [hlist]; rfl) rfl (by rw [hlist]; rfl) rfl (by norm_num)

/-- Counterexample to C4: on the §8 scenario content the classifier does not
return `"problem_solving"` — the `"?"` keyword of the first (question) rule
matches. -/
theorem classify_memory_type_clr_scenario_not_problem_solving :
    classify_memory_type "brown spots on leaves, is this CLR?" ≠ "problem_solving" := by
  decide

/-- Claim C4 (amended): the classifier applies the fixed keyword rules in
priority order question → problem_solving → positive_feedback →
market_inquiry → farming_activity → general_conversation with the first match
winning, and on the §8 candidate content the `"?"` keyword triggers the first
rule, so the returned `memory_type` is `"question"`. -/
theorem classify_memory_type_clr_scenario_question :
    classify_memory_type "brown spots on leaves, is this CLR?" = "question" := by
  decide

/-- On the repository-success path, when the LLM reply is not a
parsed-but-schema-incomplete object (it fails to parse entirely, or it
carries every schema key), consolidation behaves as specified: fewer than 2
stored messages yields the explicit non-error `none`, and 2 or more (ordered
ascending by `created_at`, as fetched) yield a `ConversationSummary` whose
`message_count` is the stored count and whose `duration_minutes` is
non-negative. -/
theorem consolidate_session_memory_eligibility (session_id : String)
    (reply : LlmReply) (message_data : List MessageRow)
    (hsorted : message_data.Pairwise (fun a b => a.created_at ≤ b.created_at))
    (hreply : reply ≠ LlmReply.parsed_incomplete) :
    (message_data.length < 2 →
      consolidate_session_memory session_id reply message_data = none) ∧
    (2 ≤ message_data.length →
      ∃ cs, consolidate_session_memory session_id reply message_data = some cs
        ∧ cs.message_count = message_data.length ∧ 0 ≤ cs.duration_minutes) := by
  match message_data with
  | [] => exact ⟨fun _ => rfl, fun h => absurd h (by norm_num)⟩
  | [r] => exact ⟨fun _ => rfl, fun h => absurd h (by norm_num [List.length])⟩
  | r0 :: r1 :: rest =>
    constructor
    · intro hlt
      exfalso
      simp only [List.length_cons] at hlt
      omega
    · intro _
      have hmem : (r1 :: rest).getLast (List.cons_ne_nil r1 rest) ∈ r1 :: rest :=
        List.getLast_mem _
      have hle : r0.created_at
          ≤ ((r1 :: rest).getLast (List.cons_ne_nil r1 rest)).created_at :=
        (List.pairwise_cons.mp hsorted).1 _ hmem
      cases reply with
      | parse_error =>
        refine ⟨_, rfl, rfl, ?_⟩
        exact Int.tdiv_nonneg (sub_nonneg.mpr hle) (by norm_num)
      | parsed_complete parts =>
        refine ⟨_, rfl, rfl, ?_⟩
        exact Int.tdiv_nonneg (sub_nonneg.mpr hle) (by norm_num)
      | parsed_incomplete => exact absurd rfl hreply

/-- Claim C5 (code bug): for the eligible two-message session `c5_messages`,
an LLM reply that parses as JSON but lacks the schema keys (for example the
literal `"{}"`, which is also the hard-coded default for a missing `content`
key) makes `summary["summary"]` raise; the outer `except` swallows the error
and `consolidate_session_memory` returns the same `None` as the not-eligible
path instead of a `ConversationSummary` — while a reply that fails to parse
at all correctly degrades to the fallback summary.  This contradicts the
spec's own degrade policy (fall back on unparseable structured data; only the
eligibility precondition is a non-success result; never assume schema
validity). -/
theorem consolidate_session_memory_schema_gap :
    2 ≤ c5_messages.length ∧
    consolidate_session_memory "session-a" LlmReply.parsed_incomplete c5_messages
      = none ∧
    (consolidate_session_memory "session-a" LlmReply.parse_error c5_messages).isSome
      = true :=
  ⟨by decide, rfl, rfl⟩

/-- Claim C6: with the default `min_frequency = 2`, every insight returned by
`get_memory_insights` has frequency at least 2 and importance strictly above
`0.5`; the returned list is sorted non-increasing by `importance_score` and
has at most `limit` elements. -/
theorem get_memory_insights_filtered_sorted_truncated (now : ℤ) (limit : ℕ)
    (summarize : String → List ConvRow → String) (data : List ConvRow) :
    (∀ i ∈ get_memory_insights now limit 2 summarize data,
        2 ≤ i.frequency ∧ 1/2 < i.importance_score) ∧
    (get_memory_insights now limit 2 summarize data).Sorted
      (fun a b => b.importance_score ≤ a.importance_score) ∧
    (get_memory_insights now limit 2 summarize data).length ≤ limit := by
  by_cases hd : data.isEmpty = true
  · simp [get_memory_insights, hd]
  · simp only [get_memory_insights, hd, if_false]
    refine ⟨?_, ?_, ?_⟩
    · intro i hi
      have hi2 := mem_stable_sort_desc.mp (List.mem_of_mem_take hi)
      have hp := (List.mem_filter.mp hi2).2
      simp only [decide_eq_true_eq] at hp
      exact hp
    · exact (sorted_stable_sort_desc _ _).sublist (List.take_sublist _ _)
    · exact List.length_take_le _ _

/-- Witness for C6: the concrete insight mined from `c6_data` is returned and
satisfies the frequency and importance bounds. -/
theorem get_memory_insights_filtered_sorted_truncated_witness :
    c6_insight ∈ get_memory_insights 14 5 2 (fun _ _ => "") c6_data ∧
    (2 ≤ c6_insight.frequency ∧ 1/2 < c6_insight.importance_score) := by
  have ht : extract_farming_topics "coffee" = ["coffee"] := by decide
  have hpipe : get_memory_insights 14 5 2 (fun _ _ => "") c6_data = [c6_insight] := by
    norm_num [get_memory_insights, analyze_conversation_patterns, dedup_first, c6_data,
      ht, calculate_insight_importance, min_ts, max_ts, stable_sort_desc,
      insert_by_desc, c6_insight, List.filter, List.flatMap]
  have hmem : c6_insight ∈ get_memory_insights 14 5 2 (fun _ _ => "") c6_data := by
    rw [hpipe]
    exact List.mem_singleton.mpr rfl
  exact ⟨hmem,
    (get_memory_insights_filtered_sorted_truncated 14 5 (fun _ _ => "") c6_data).1
      c6_insight hmem⟩

/-- Counterexample to C7: an embedder failure does not raise out of the search
step (which catches every exception and returns an empty hit list), so the
built context keeps the mined insights and a non-empty summary — not the
all-empty context the claim describes for this failure. -/
theorem get_intelligent_memory_context_embedder_failure_nonempty_summary :
    (get_intelligent_memory_context false [] false true [c7_insight]
        "why are my leaves dying" 5).context_summary
      = "Key farming insights: pests" ∧
    ¬ (get_intelligent_memory_context false [] false true [c7_insight]
        "why are my leaves dying" 5).context_summary = "" := by
  constructor
  · rfl
  · intro h
    exact absurd ((rfl :
      (get_intelligent_memory_context false [] false true [c7_insight]
        "why are my leaves dying" 5).context_summary
        = "Key farming insights: pests").symm.trans h) (by decide)

/-- Claim C7 (amended): an exception escaping a step inside the context
builder's `try` yields exactly the empty context (no memories, no insights,
empty summary, zero found, zero confidence) and never propagates; an embedder
failure is absorbed inside the search step, which degrades to an empty
candidate list, so the context still has no relevant memories, zero
`total_memories_found` and zero confidence (insights and summary may remain);
and an empty candidate set always gives no relevant memories and zero
confidence. -/
theorem get_intelligent_memory_context_degradation (embedder_ok : Bool)
    (index_hits : List (MemoryCandidate × EnhanceEnv))
    (body_raises include_insights : Bool) (insights : List MemoryInsight)
    (query : String) (max_memories : ℕ) :
    (body_raises = true →
      get_intelligent_memory_context embedder_ok index_hits body_raises
        include_insights insights query max_memories = empty_memory_context) ∧
    (body_raises = false → embedder_ok = false →
      (get_intelligent_memory_context embedder_ok index_hits body_raises
          include_insights insights query max_memories).relevant_memories = []
        ∧ (get_intelligent_memory_context embedder_ok index_hits body_raises
          include_insights insights query max_memories).total_memories_found = 0
        ∧ (get_intelligent_memory_context embedder_ok index_hits body_raises
          include_insights insights query max_memories).confidence_score = 0) ∧
    (body_raises = false → index_hits = [] →
      (get_intelligent_memory_context embedder_ok index_hits body_raises
          include_insights insights query max_memories).relevant_memories = []
        ∧ (get_intelligent_memory_context embedder_ok index_hits body_raises
          include_insights insights query max_memories).confidence_score = 0) := by
  refine ⟨?_, ?_, ?_⟩
  · intro h
    subst h
    rfl
  · intro hb he
    subst hb
    subst he
    refine ⟨?_, rfl, rfl⟩
    show (enhance_memory_relevance query []).take max_memories = []
    simp [enhance_memory_relevance, stable_sort_desc]
  · intro hb hh
    subst hb
    subst hh
    cases embedder_ok
    · refine ⟨?_, rfl⟩
      show (enhance_memory_relevance query []).take max_memories = []
      simp [enhance_memory_relevance, stable_sort_desc]
    · refine ⟨?_, rfl⟩
      show (enhance_memory_relevance query []).take max_memories = []
      simp [enhance_memory_relevance, stable_sort_desc]

/-- Witness for C7 (amended), covering all three degradation branches at
concrete inputs. -/
theorem get_intelligent_memory_context_degradation_witness :
    (get_intelligent_memory_context true [] true true [] "q" 5
        = empty_memory_context) ∧
    ((get_intelligent_memory_context false [] false true [c7_insight] "q" 5
        ).relevant_memories = []
      ∧ (get_intelligent_memory_context false [] false true [c7_insight] "q" 5
        ).total_memories_found = 0
      ∧ (get_intelligent_memory_context false [] false true [c7_insight] "q" 5
        ).confidence_score = 0) ∧
    ((get_intelligent_memory_context true [] false false [] "q" 5
        ).relevant_memories = []
      ∧ (get_intelligent_memory_context true [] false false [] "q" 5
        ).confidence_score = 0) :=
  ⟨(get_intelligent_memory_context_degradation true [] true true [] "q" 5).1 rfl,
   (get_intelligent_memory_context_degradation false [] false true [c7_insight]
      "q" 5).2.1 rfl rfl,
   (get_intelligent_memory_context_degradation true [] false false [] "q" 5).2.2
      rfl rfl⟩

/-- Every extracted topic is a key of the hard-coded taxonomy dict. -/
theorem extract_farming_topics_subset_keys (t : String) :
    ∀ x ∈ extract_farming_topics t, x ∈ farming_keywords.map Prod.fst := by
  intro x hx
  unfold extract_farming_topics at hx
  simp only [List.mem_map, List.mem_filter] at hx ⊢
  obtain ⟨p, ⟨hp, _⟩, rfl⟩ := hx
  exact ⟨p, hp, rfl⟩

/-- Counterexample to C8: the live taxonomy has no `"quality"` topic — no
input text ever yields it. -/
theorem extract_farming_topics_no_quality :
    ¬ ∃ t : String, "quality" ∈ extract_farming_topics t := by
  rintro ⟨t, ht⟩
  exact absurd (extract_farming_topics_subset_keys t _ ht) (by decide)

/-- Claim C8 (amended): the topic extractor matches against a fixed taxonomy
of exactly seven topics — coffee, pests, weather, harvest, planting, soil,
market (no `"quality"`): every returned topic list is a subset of these seven,
and each of the seven is returned for some input text. -/
theorem extract_farming_topics_seven_topic_taxonomy :
    (∀ t : String, ∀ x ∈ extract_farming_topics t,
      x ∈ ["coffee", "pests", "weather", "harvest", "planting", "soil", "market"]) ∧
    ("coffee" ∈ extract_farming_topics "coffee"
      ∧ "pests" ∈ extract_farming_topics "cbd"
      ∧ "weather" ∈ extract_farming_topics "rain"
      ∧ "harvest" ∈ extract_farming_topics "picking"
      ∧ "planting" ∈ extract_farming_topics "nursery"
      ∧ "soil" ∈ extract_farming_topics "soil"
      ∧ "market" ∈ extract_farming_topics "price") := by
  constructor
  · intro t x hx
    have h := extract_farming_topics_subset_keys t x hx
    have hkeys : farming_keywords.map Prod.fst
        = ["coffee", "pests", "weather", "harvest", "planting", "soil", "market"] := by
      decide
    rwa [hkeys] at h
  · exact ⟨by decide, by decide, by decide, by decide, by decide, by decide, by decide⟩

/-- Witness for C8 (amended): the subset property applied at a concrete text
and topic. -/
theorem extract_farming_topics_seven_topic_taxonomy_witness :
    "coffee" ∈ ["coffee", "pests", "weather", "harvest", "planting", "soil", "market"] :=
  extract_farming_topics_seven_topic_taxonomy.1 "coffee" "coffee" (by decide)

/-! ### Helper lemmas: whitespace splitting and joining -/

theorem dropWhile_eq_self_of_all_false {p : Char → Bool} :
    ∀ l : List Char, (∀ c ∈ l, p c = false) → l.dropWhile p = l
  | [], _ => rfl
  | c :: cs, h => by
    rw [List.dropWhile_cons, h c (List.mem_cons_self c cs)]
    simp

theorem split_ws_aux_all_nonspace :
    ∀ (w acc : List Char), (∀ c ∈ w, is_py_space c = false) → acc ≠ [] →
      split_ws_aux w acc = [acc.reverse ++ w]
  | [], acc, _, hacc => by
    simp only [split_ws_aux, List.isEmpty_eq_true]
    rw [if_neg hacc]
    simp
  | c :: cs, acc, hns, hacc => by
    have hc : is_py_space c = false := hns c (List.mem_cons_self c cs)
    simp only [split_ws_aux, hc, Bool.false_eq_true, if_false]
    rw [split_ws_aux_all_nonspace cs (c :: acc)
      (fun d hd => hns d (List.mem_cons_of_mem c hd)) (List.cons_ne_nil c acc)]
    simp

theorem split_ws_of_nonspace (w : List Char) (hns : ∀ c ∈ w, is_py_space c = false)
    (hw : w ≠ []) : split_ws w = [w] := by
  cases w with
  | nil => exact absurd rfl hw
  | cons c cs =>
    have hc : is_py_space c = false := hns c (List.mem_cons_self c cs)
    rw [split_ws]
    simp only [split_ws_aux, hc, Bool.false_eq_true, if_false]
    rw [split_ws_aux_all_nonspace cs [c]
      (fun d hd => hns d (List.mem_cons_of_mem c hd)) (List.cons_ne_nil c [])]
    simp

theorem split_ws_aux_words :
    ∀ (s acc : List Char), (∀ c ∈ acc, is_py_space c = false) →
      ∀ w ∈ split_ws_aux s acc, w ≠ [] ∧ ∀ c ∈ w, is_py_space c = false
  | [], acc, hacc, w, hw => by
    by_cases he : acc.isEmpty
    · simp only [split_ws_aux, he, if_true] at hw
      exact absurd hw (List.not_mem_nil w)
    · simp only [split_ws_aux, he, Bool.false_eq_true, if_false,
        List.mem_singleton] at hw
      subst hw
      constructor
      · intro habs
        rw [List.reverse_eq_nil_iff] at habs
        rw [habs] at he
        exact he rfl
      · intro c hc
        exact hacc c (List.mem_reverse.mp hc)
  | a :: s, acc, hacc, w, hw => by
    by_cases ha : is_py_space a
    · by_cases he : acc.isEmpty
      · simp only [split_ws_aux, ha, if_true, he] at hw
        exact split_ws_aux_words s []
          (by intro c hc; exact absurd hc (List.not_mem_nil c)) w hw
      · simp only [split_ws_aux, ha, if_true, he, Bool.false_eq_true, if_false,
          List.mem_cons] at hw
        rcases hw with hw | hw
        · subst hw
          constructor
          · intro habs
            rw [List.reverse_eq_nil_iff] at habs
            rw [habs] at he
            exact he rfl
          · intro c hc
            exact hacc c (List.mem_reverse.mp hc)
        · exact split_ws_aux_words s []
            (by intro c hc; exact absurd hc (List.not_mem_nil c)) w hw
    · simp only [split_ws_aux, ha, Bool.false_eq_true, if_false] at hw
      refine split_ws_aux_words s (a :: acc) ?_ w hw
      intro c hc
      rcases List.mem_cons.mp hc with hc | hc
      · subst hc
        exact Bool.eq_false_iff.mpr ha
      · exact hacc c hc

theorem split_ws_words (s : List Char) :
    ∀ w ∈ split_ws s, w ≠ [] ∧ ∀ c ∈ w, is_py_space c = false :=
  split_ws_aux_words s [] (fun c hc => absurd hc (List.not_mem_nil c))

theorem split_ws_aux_word_then_space :
    ∀ (w tail acc : List Char), (∀ c ∈ w, is_py_space c = false) →
      (acc ≠ [] ∨ w ≠ []) →
      split_ws_aux (w ++ ' ' :: tail) acc = (acc.reverse ++ w) :: split_ws_aux tail []
  | [], tail, acc, _, hne => by
    have hacc : acc ≠ [] := by
      rcases hne with h | h
      · exact h
      · exact absurd rfl h
    have hsp : is_py_space ' ' = true := by decide
    simp only [List.nil_append, split_ws_aux, hsp, if_true]
    have he : acc.isEmpty = false := by
      rw [List.isEmpty_eq_false]
      exact hacc
    simp only [he, Bool.false_eq_true, if_false]
    simp
  | c :: cs, tail, acc, hns, _ => by
    have hc : is_py_space c = false := hns c (List.mem_cons_self c cs)
    simp only [List.cons_append, split_ws_aux, hc, Bool.false_eq_true, if_false,
      List.append_eq]
    rw [split_ws_aux_word_then_space cs tail (c :: acc)
      (fun d hd => hns d (List.mem_cons_of_mem c hd))
      (Or.inl (List.cons_ne_nil c acc))]
    simp

theorem split_ws_space_join :
    ∀ ws : List (List Char),
      (∀ w ∈ ws, w ≠ [] ∧ ∀ c ∈ w, is_py_space c = false) →
      split_ws (space_join ws) = ws
  | [], _ => rfl
  | [w], h => by
    obtain ⟨hne, hns⟩ := h w (List.mem_singleton.mpr rfl)
    rw [space_join]
    exact split_ws_of_nonspace w hns hne
  | w :: w2 :: ws, h => by
    obtain ⟨hne, hns⟩ := h w (List.mem_cons_self w (w2 :: ws))
    rw [space_join, split_ws]
    rw [split_ws_aux_word_then_space w (space_join (w2 :: ws)) [] hns (Or.inr hne)]
    simp only [List.reverse_nil, List.nil_append]
    have hrest := split_ws_space_join (w2 :: ws)
      (fun v hv => h v (List.mem_cons_of_mem w hv))
    rw [split_ws] at hrest
    rw [hrest]

/-- `clean_text` written with its `let` unfolded. -/
theorem clean_text_eq (t : List Char) :
    clean_text t =
      if 2000 < (space_join (split_ws (py_strip t))).length
      then (space_join (split_ws (py_strip t))).take 2000 ++ ['.', '.', '.']
      else space_join (split_ws (py_strip t)) := rfl

/-- Counterexample to C9: a 2001-character whitespace-free input is cleaned to
2003 characters (2000 kept plus the appended `"..."`), exceeding the claimed
2000-character cap. -/
theorem clean_text_overlong_exceeds_cap :
    2000 < (clean_text (List.replicate 2001 'a')).length ∧
    (clean_text (List.replicate 2001 'a')).length = 2003 := by
  have hns : ∀ c ∈ List.replicate 2001 'a', is_py_space c = false := by
    intro c hc
    rw [List.eq_of_mem_replicate hc]
    decide
  have hstrip : py_strip (List.replicate 2001 'a') = List.replicate 2001 'a' := by
    rw [py_strip, dropWhile_eq_self_of_all_false _ hns,
      dropWhile_eq_self_of_all_false _
        (fun c hc => hns c (List.mem_reverse.mp hc)),
      List.reverse_reverse]
  have hsplit : split_ws (py_strip (List.replicate 2001 'a'))
      = [List.replicate 2001 'a'] := by
    rw [hstrip]
    refine split_ws_of_nonspace _ hns ?_
    intro habs
    have hl := List.length_replicate 2001 'a'
    rw [habs] at hl
    exact absurd hl.symm (by norm_num)
  have hjoin : space_join [List.replicate 2001 'a'] = List.replicate 2001 'a' := rfl
  have hlen : (List.replicate 2001 'a').length = 2001 := List.length_replicate 2001 'a'
  have hcond : 2000 < (List.replicate 2001 'a').length := by
    rw [hlen]
    norm_num
  have hform : clean_text (List.replicate 2001 'a')
      = (List.replicate 2001 'a').take 2000 ++ ['.', '.', '.'] := by
    rw [clean_text_eq, hsplit, hjoin, if_pos hcond]
  have hdots : (['.', '.', '.'] : List Char).length = 3 := rfl
  have hfinal : (clean_text (List.replicate 2001 'a')).length = 2003 := by
    rw [hform, List.length_append, List.length_take, hlen, hdots]
    omega
  exact ⟨by rw [hfinal]; norm_num, hfinal⟩

/-- Claim C9 (amended): the cleaning step trims and collapses whitespace — the
words the encoder sees are exactly the words of the stripped input whenever
the collapsed text fits the cap — and the text passed to the encoder has
length at most 2003 characters: the 2000-character truncation plus the
three-character ellipsis appended when the collapsed text exceeds the cap. -/
theorem clean_text_length_and_word_preservation (s : List Char) :
    (clean_text s).length ≤ 2003 ∧
    ((space_join (split_ws (py_strip s))).length ≤ 2000 →
      split_ws (clean_text s) = split_ws (py_strip s)) := by
  have hdots : (['.', '.', '.'] : List Char).length = 3 := rfl
  constructor
  · by_cases h : 2000 < (space_join (split_ws (py_strip s))).length
    · rw [clean_text_eq, if_pos h, List.length_append, List.length_take, hdots]
      omega
    · rw [clean_text_eq, if_neg h]
      omega
  · intro hle
    have hnot : ¬ 2000 < (space_join (split_ws (py_strip s))).length := by omega
    rw [clean_text_eq, if_neg hnot]
    exact split_ws_space_join _ (split_ws_words (py_strip s))

/-- Witness for C9 (amended) on a short messy input. -/
theorem clean_text_length_and_word_preservation_witness :
    (space_join (split_ws (py_strip (" coffee   rust " : String).data))).length ≤ 2000 ∧
    split_ws (clean_text (" coffee   rust " : String).data)
      = split_ws (py_strip (" coffee   rust " : String).data) :=
  ⟨by decide,
    (clean_text_length_and_word_preservation (" coffee   rust " : String).data).2
      (by decide)⟩
